import Mathlib

/-!
Verification development for the photon-imsg-mcp server.

The TypeScript sources are shallowly embedded:
* JSON-like runtime values (the untyped `args` of a tool call) become `JVal`.
* The tool type guards and handlers of `src/tools/imessage.ts` become pure
  functions; a thrown exception is an `Except.error` carrying the message, and
  the `try/catch` wrapper of each handler becomes `toEnvelope`.
* The tool dispatch switch of `src/server.ts` becomes `dispatchCallTool`.
* The `PhotonClient` methods of `src/client.ts` become functions over an
  `SdkEnv`, which records the outcome of the external SDK calls made during a
  single request (the message snapshot returned by `sdk.getMessages`, the
  verdict of `asRecipient`, and the outcome of `sdk.send`).
* Timestamps (JavaScript `Date` values, compared with `>` and `getTime`)
  are embedded as `Nat`; locale-dependent date rendering is embedded as the
  numeral rendering `formatDate`, which no claim depends on.
* JavaScript `Map` and `Set` (which iterate in insertion order) are embedded
  as association lists and duplicate-free lists with append-at-end insertion;
  the stable `Array.prototype.sort` on descending timestamps is embedded as
  the stable insertion sort `sortByDateDesc`.
-/

/-- A JSON-like runtime value, as received for the `arguments` member of a
tool-call request.  `jnull` is the JavaScript `null`. -/
inductive JVal where
  | jnull
  | jbool (b : Bool)
  | jnum (n : Int)
  | jstr (s : String)
  | jarr (elems : List JVal)
  | jobj (fields : List (String × JVal))
deriving Inhabited

/-- First binding of a key in an object field list (JavaScript object keys are
unique, so first-match lookup is faithful). -/
def getFieldAux (key : String) : List (String × JVal) → Option JVal
  | [] => none
  | (k, v) :: rest => if k = key then some v else getFieldAux key rest

/-- Property access `v[key]`: defined on objects, `none` (undefined) elsewhere.
Also embeds the `key in v` presence test via `Option.isSome`. -/
def JVal.getField : JVal → String → Option JVal
  | .jobj fields, key => getFieldAux key fields
  | _, _ => none

/-- JavaScript truthiness of a value. -/
def JVal.truthy : JVal → Bool
  | .jnull => false
  | .jbool b => b
  | .jnum n => n != 0
  | .jstr s => s != ""
  | .jarr _ => true
  | .jobj _ => true

/-- The test `typeof v === "object" && v !== null` (arrays are objects). -/
def JVal.isObjectNonNull : JVal → Bool
  | .jobj _ => true
  | .jarr _ => true
  | _ => false

/-- The test `typeof v === "string"`. -/
def JVal.isStr : JVal → Bool
  | .jstr _ => true
  | _ => false

/-- Unwrap a string value (only used after an `isStr` check succeeded). -/
def JVal.asStr : JVal → String
  | .jstr s => s
  | _ => ""

/-- Type guard `isSendMessageArgs` of `src/tools/imessage.ts`: a non-null
object with `recipient` and `text` members that are both strings. -/
def isSendMessageArgs (v : JVal) : Bool :=
  v.isObjectNonNull
    && (v.getField "recipient").isSome
    && (v.getField "text").isSome
    && ((v.getField "recipient").getD .jnull).isStr
    && ((v.getField "text").getD .jnull).isStr

/-- Type guard `isReadMessagesArgs` of `src/tools/imessage.ts`: it only checks
`typeof args === "object" && args !== null`. -/
def isReadMessagesArgs (v : JVal) : Bool :=
  v.isObjectNonNull

/-- Type guard `isGetConversationsArgs` of `src/tools/imessage.ts`: same
object-shape check as the read guard. -/
def isGetConversationsArgs (v : JVal) : Bool :=
  v.isObjectNonNull

/-- One `{type: "text", text: ...}` content entry of a tool result. -/
structure TextContent where
  text : String
deriving Repr, DecidableEq

/-- The `CallToolResult` envelope `{content, isError}`. -/
structure CallToolResult where
  content : List TextContent
  isError : Bool
deriving Repr, DecidableEq

/-- Successful envelope `{content: [text], isError: false}`. -/
def okEnvelope (s : String) : CallToolResult :=
  { content := [{ text := s }], isError := false }

/-- Error envelope: the caught exception message behind an `Error: ` marker,
with `isError: true`. -/
def errEnvelope (e : String) : CallToolResult :=
  { content := [{ text := "Error: " ++ e }], isError := true }

/-- The `try { ... } catch (error) { ... }` body shared by all four handlers:
a normal return becomes a success envelope, a thrown error becomes the
error-flagged envelope. -/
def toEnvelope : Except String String → CallToolResult
  | .ok s => okEnvelope s
  | .error e => errEnvelope e

/-- Handler `handleSendMessageTool`: reject absent/falsy args, apply the send
guard, then call `client.sendMessage` with the checked strings.  `send` is the
client method, whose thrown exceptions are `Except.error` values. -/
def handleSendMessageTool (send : String → String → Except String String)
    (args : Option JVal) : CallToolResult :=
  toEnvelope <|
    match args with
    | none => .error "No arguments provided"
    | some v =>
      if !v.truthy then .error "No arguments provided"
      else if isSendMessageArgs v then
        send ((v.getField "recipient").getD .jnull).asStr
          ((v.getField "text").getD .jnull).asStr
      else .error "Invalid arguments for photon_send_message. Required: recipient, text"

/-- Handler `handleReadMessagesTool`: reject absent/falsy args, apply the read
guard, then pass the raw argument object to `client.readMessages`. -/
def handleReadMessagesTool (read : JVal → Except String String)
    (args : Option JVal) : CallToolResult :=
  toEnvelope <|
    match args with
    | none => .error "No arguments provided"
    | some v =>
      if !v.truthy then .error "No arguments provided"
      else if isReadMessagesArgs v then read v
      else .error "Invalid arguments for photon_read_messages"

/-- Handler `handleGetConversationsTool`: reject absent/falsy args, apply the
conversations guard, then pass the raw argument object on. -/
def handleGetConversationsTool (getConvs : JVal → Except String String)
    (args : Option JVal) : CallToolResult :=
  toEnvelope <|
    match args with
    | none => .error "No arguments provided"
    | some v =>
      if !v.truthy then .error "No arguments provided"
      else if isGetConversationsArgs v then getConvs v
      else .error "Invalid arguments for photon_get_conversations"

/-- Handler `handleGetConversationDetailsTool`: requires a present object
argument carrying a `chatId` member; the member must be a string. -/
def handleGetConversationDetailsTool (getDetails : String → Except String String)
    (args : Option JVal) : CallToolResult :=
  toEnvelope <|
    match args with
    | none => .error "chatId is required"
    | some v =>
      if !v.truthy || !v.isObjectNonNull || !(v.getField "chatId").isSome then
        .error "chatId is required"
      else
        let c := (v.getField "chatId").getD .jnull
        if c.isStr then getDetails c.asStr
        else .error "chatId must be a string"

/-- The protocol error codes used by the dispatcher. -/
inductive ErrorCode where
  | MethodNotFound
deriving Repr, DecidableEq

/-- A protocol-level fault (`McpError`), thrown past the tool handlers. -/
structure McpError where
  code : ErrorCode
  message : String
deriving Repr, DecidableEq

/-- The `CallToolRequestSchema` switch of `src/server.ts` (identical in
`PhotonServer.setupHandlers` and `createStandaloneServer`): the four
registered names are routed to their handlers, any other name throws a
`MethodNotFound` protocol fault. -/
def dispatchCallTool (send : String → String → Except String String)
    (read : JVal → Except String String)
    (getConvs : JVal → Except String String)
    (getDetails : String → Except String String)
    (name : String) (args : Option JVal) : Except McpError CallToolResult :=
  if name = "photon_send_message" then
    .ok (handleSendMessageTool send args)
  else if name = "photon_read_messages" then
    .ok (handleReadMessagesTool read args)
  else if name = "photon_get_conversations" then
    .ok (handleGetConversationsTool getConvs args)
  else if name = "photon_get_conversation_details" then
    .ok (handleGetConversationDetailsTool getDetails args)
  else
    .error { code := .MethodNotFound, message := "Unknown tool: " ++ name }

/-- A message record as returned by the SDK snapshot: the fields the client
code reads (`text`, `sender`, `date`, `isFromMe`, `isRead`, `chatId`,
`isGroupChat`, `service`).  Timestamps are `Nat`. -/
structure Msg where
  text : String
  sender : String
  date : Nat
  isFromMe : Bool
  isRead : Bool
  chatId : String
  isGroupChat : Bool
  service : String
deriving Repr, DecidableEq

/-- `msg.text || "(no text)"` (the empty string is falsy). -/
def textOrDefault (t : String) : String :=
  if t = "" then "(no text)" else t

/-- `msg.sender || "Unknown"`. -/
def senderOrDefault (s : String) : String :=
  if s = "" then "Unknown" else s

/-- `msg.service || "iMessage"`. -/
def serviceOrDefault (s : String) : String :=
  if s = "" then "iMessage" else s

/-- Rendering of a timestamp (`toLocaleString` in the source; the exact
rendering is locale-dependent and outside every claim, so the numeral is
used). -/
def formatDate (d : Nat) : String :=
  toString d

/-- Outcomes of the external SDK calls during one request: the result of the
single `sdk.getMessages` query, the verdict of the `asRecipient` parser, and
the outcome of `sdk.send`.  Errors carry the thrown message. -/
structure SdkEnv where
  getMessagesResult : Except String (List Msg)
  recipientOk : String → Bool
  sendResult : String → String → Except String Unit

/-- The outer `catch` of each client method, which rethrows with a fixed
method-specific marker glued in front of the underlying message. -/
def wrapErr (pre : String) : Except String String → Except String String
  | .ok s => .ok s
  | .error e => .error (pre ++ e)

/-- `PhotonClient.sendMessage`: reject empty recipient or text, validate the
recipient with the SDK parser, then send; every failure is rethrown behind
`Failed to send message: `. -/
def sendMessage (env : SdkEnv) (recipient text : String) : Except String String :=
  wrapErr "Failed to send message: " <|
    if recipient = "" || text = "" then
      .error "Recipient and text are required"
    else if !env.recipientOk recipient then
      .error ("Invalid recipient format: " ++ recipient ++
        ". Expected phone number (e.g., +1234567890) or email address.")
    else
      match env.sendResult recipient text with
      | .ok _ => .ok ("Message sent successfully to " ++ recipient)
      | .error e => .error e

/-- Typed `ReadMessagesArgs` of `src/types.ts`. -/
structure ReadMessagesArgs where
  recipient : Option String := none
  limit : Option Nat := none
  unreadOnly : Option Bool := none
deriving Repr, DecidableEq

/-- Typed `GetConversationsArgs` of `src/types.ts`; the `offset` member is
declared but never read by the client. -/
structure GetConversationsArgs where
  limit : Option Nat := none
  offset : Option Nat := none
deriving Repr, DecidableEq

/-- One line of `PhotonClient.readMessages` output:
`[date] sender (service): text`. -/
def formatMessage (m : Msg) : String :=
  "[" ++ formatDate m.date ++ "] " ++
    (if m.isFromMe then "You" else senderOrDefault m.sender) ++
    " (" ++ serviceOrDefault m.service ++ "): " ++ textOrDefault m.text

/-- `PhotonClient.readMessages`: validate the recipient filter if one is
given, query the SDK, return the sentinel on an empty snapshot, otherwise the
formatted lines; failures are rethrown behind `Failed to read messages: `. -/
def readMessages (env : SdkEnv) (args : ReadMessagesArgs) : Except String String :=
  wrapErr "Failed to read messages: " <|
    let recipientCheck : Except String Unit :=
      match args.recipient with
      | some r =>
        if r != "" && !env.recipientOk r then
          .error ("Invalid recipient format: " ++ r ++
            ". Expected phone number (e.g., +1234567890) or email address.")
        else .ok ()
      | none => .ok ()
    match recipientCheck with
    | .error e => .error e
    | .ok _ =>
      match env.getMessagesResult with
      | .error e => .error e
      | .ok msgs =>
        if msgs.isEmpty then .ok "No messages found"
        else .ok (String.intercalate "\n\n" (msgs.map formatMessage))

/-- The per-conversation accumulator object built by
`PhotonClient.getConversations` (`{chatId, lastMessage, lastDate,
participants, unreadCount}`). -/
structure ConvAcc where
  chatId : String
  lastMessage : String
  lastDate : Nat
  participants : List String
  unreadCount : Nat
deriving Repr, DecidableEq

/-- `Set.add`: append the handle unless it is already present (JavaScript sets
iterate in insertion order). -/
def addParticipant (ps : List String) (s : String) : List String :=
  if s ∈ ps then ps else ps ++ [s]

/-- The accumulator created when a chat id is seen for the first time. -/
def initAcc (m : Msg) : ConvAcc :=
  { chatId := m.chatId
    lastMessage := textOrDefault m.text
    lastDate := m.date
    participants := []
    unreadCount := 0 }

/-- The per-message body of the `for` loop of `getConversations`: bump the
last message on a strictly later timestamp, then accumulate the sender and the
unread count for messages not sent by the local user. -/
def updateAcc (conv : ConvAcc) (m : Msg) : ConvAcc :=
  let conv :=
    if conv.lastDate < m.date then
      { conv with lastMessage := textOrDefault m.text, lastDate := m.date }
    else conv
  if m.isFromMe then conv
  else
    { conv with
        participants := addParticipant conv.participants m.sender
        unreadCount := conv.unreadCount + (if m.isRead then 0 else 1) }

/-- The action of one loop iteration on the (last message, last timestamp)
pair alone: replace the pair exactly when the incoming timestamp is strictly
later. -/
def lastStep (p : String × Nat) (m : Msg) : String × Nat :=
  if p.2 < m.date then (textOrDefault m.text, m.date) else p

/-- The same action for the detail loop, whose timestamp starts out as the
JavaScript `null` (`!lastDate || msg.date > lastDate`). -/
def lastStepO (p : String × Option Nat) (m : Msg) : String × Option Nat :=
  match p.2 with
  | none => (textOrDefault m.text, some m.date)
  | some d => if d < m.date then (textOrDefault m.text, some m.date) else p

/-- `Map.get` on the insertion-ordered conversation map. -/
def lookupConv (cid : String) : List (String × ConvAcc) → Option ConvAcc
  | [] => none
  | (k, v) :: rest => if k = cid then some v else lookupConv cid rest

/-- In-place mutation of the map entry holding `cid`. -/
def updateConvEntry (cid : String) (f : ConvAcc → ConvAcc) :
    List (String × ConvAcc) → List (String × ConvAcc)
  | [] => []
  | (k, v) :: rest =>
    if k = cid then (k, f v) :: rest else (k, v) :: updateConvEntry cid f rest

/-- One iteration of the grouping loop: insert a fresh accumulator when the
chat id is unseen (`Map.set` appends at the end), then run the update body on
the entry. -/
def convStep (map : List (String × ConvAcc)) (m : Msg) : List (String × ConvAcc) :=
  let map' :=
    if (lookupConv m.chatId map).isSome then map
    else map ++ [(m.chatId, initAcc m)]
  updateConvEntry m.chatId (fun c => updateAcc c m) map'

/-- The grouping pass of `getConversations` over the whole snapshot. -/
def groupConversations (msgs : List Msg) : List (String × ConvAcc) :=
  msgs.foldl convStep []

/-- Insertion into a list already sorted by descending `lastDate`, placing the
new (earlier-seen) element in front of equal timestamps, as the stable
JavaScript sort does. -/
def insertByDateDesc (c : ConvAcc) : List ConvAcc → List ConvAcc
  | [] => [c]
  | d :: ds =>
    if c.lastDate < d.lastDate then d :: insertByDateDesc c ds
    else c :: d :: ds

/-- The stable descending sort
`sort((a, b) => b.lastDate.getTime() - a.lastDate.getTime())`. -/
def sortByDateDesc : List ConvAcc → List ConvAcc
  | [] => []
  | c :: cs => insertByDateDesc c (sortByDateDesc cs)

/-- The summary list built by `getConversations`: group, sort descending by
last timestamp, `slice(0, limit)`. -/
def getConversationsSummaries (msgs : List Msg) (limit : Nat) : List ConvAcc :=
  (sortByDateDesc ((groupConversations msgs).map Prod.snd)).take limit

/-- One output block of `getConversations`. -/
def formatConversation (c : ConvAcc) : String :=
  let joined := String.intercalate ", " c.participants
  let participants := if joined = "" then "Unknown" else joined
  let unread :=
    if c.unreadCount > 0 then " (" ++ toString c.unreadCount ++ " unread)" else ""
  "Chat ID: " ++ c.chatId ++ "\nParticipants: " ++ participants ++
    "\nLast Message: " ++ c.lastMessage ++ unread

/-- `PhotonClient.getConversations`: only the `limit` member of the argument
record is read (default 50); the snapshot is grouped, sorted and truncated,
with the sentinel on an empty snapshot; failures are rethrown behind
`Failed to get conversations: `. -/
def getConversations (env : SdkEnv) (args : GetConversationsArgs) :
    Except String String :=
  wrapErr "Failed to get conversations: " <|
    let limit := args.limit.getD 50
    match env.getMessagesResult with
    | .error e => .error e
    | .ok msgs =>
      if msgs.isEmpty then .ok "No conversations found"
      else
        .ok (String.intercalate "\n\n---\n\n"
          ((getConversationsSummaries msgs limit).map formatConversation))

/-- The accumulator of the `for` loop of `getConversationDetails`
(`participants`, `lastMessage`, `lastDate`, `unreadCount`, `isGroupChat`). -/
structure DetailAcc where
  participants : List String
  lastMessage : String
  lastDate : Option Nat
  unreadCount : Nat
  isGroupChat : Bool
deriving Repr, DecidableEq

/-- Loop-entry state of `getConversationDetails`. -/
def detailInit : DetailAcc :=
  { participants := []
    lastMessage := "No messages"
    lastDate := none
    unreadCount := 0
    isGroupChat := false }

/-- The per-message body of the detail loop: accumulate sender and unread
count for others, bump the last message on `!lastDate || date > lastDate`,
and latch the group flag. -/
def detailStep (acc : DetailAcc) (m : Msg) : DetailAcc :=
  let acc :=
    if m.isFromMe then acc
    else
      { acc with
          participants := addParticipant acc.participants m.sender
          unreadCount := acc.unreadCount + (if m.isRead then 0 else 1) }
  let acc :=
    match acc.lastDate with
    | none => { acc with lastMessage := textOrDefault m.text, lastDate := some m.date }
    | some d =>
      if d < m.date then
        { acc with lastMessage := textOrDefault m.text, lastDate := some m.date }
      else acc
  if m.isGroupChat then { acc with isGroupChat := true } else acc

/-- The multi-field detail block rendered by `getConversationDetails`. -/
def formatDetails (chatId : String) (d : DetailAcc) (total : Nat) : String :=
  let joined := String.intercalate ", " d.participants
  let participantsList := if joined = "" then "Unknown" else joined
  let lastDateStr :=
    match d.lastDate with
    | some t => formatDate t
    | none => "Unknown"
  "Chat ID: " ++ chatId ++ "\n" ++
    "Type: " ++ (if d.isGroupChat then "Group Chat" else "1-on-1") ++ "\n" ++
    "Participants: " ++ participantsList ++ "\n" ++
    "Last Message: " ++ d.lastMessage ++ "\n" ++
    "Last Message Date: " ++ lastDateStr ++ "\n" ++
    "Unread Count: " ++ toString d.unreadCount ++ "\n" ++
    "Total Messages: " ++ toString total

/-- `PhotonClient.getConversationDetails`: reject a falsy chat id, filter the
snapshot to the chat, return the sentinel when nothing matches, otherwise run
the detail loop and render; failures are rethrown behind
`Failed to get conversation details: `. -/
def getConversationDetails (env : SdkEnv) (chatId : String) :
    Except String String :=
  wrapErr "Failed to get conversation details: " <|
    if chatId = "" then .error "Chat ID is required"
    else
      match env.getMessagesResult with
      | .error e => .error e
      | .ok allMessages =>
        let chatMessages := allMessages.filter (fun m => m.chatId == chatId)
        if chatMessages.isEmpty then
          .ok ("No messages found for chat ID: " ++ chatId)
        else
          .ok (formatDetails chatId
            (chatMessages.foldl detailStep detailInit) chatMessages.length)

/-- Concrete three-message snapshot across two chat ids, used by the
list-conversations scenario. -/
def exampleMsgs : List Msg :=
  [ { text := "a1", sender := "alice", date := 10, isFromMe := false,
      isRead := true, chatId := "chatA", isGroupChat := false, service := "" }
  , { text := "b1", sender := "bob", date := 30, isFromMe := false,
      isRead := true, chatId := "chatB", isGroupChat := false, service := "" }
  , { text := "a2", sender := "alice", date := 20, isFromMe := false,
      isRead := true, chatId := "chatA", isGroupChat := false, service := "" } ]

/-- An SDK environment with an empty snapshot and an all-accepting recipient
parser, used by witnesses. -/
def emptyEnv : SdkEnv :=
  { getMessagesResult := .ok []
    recipientOk := fun _ => true
    sendResult := fun _ _ => .ok () }

/-- An SDK environment whose snapshot is the three-message example. -/
def exampleEnv : SdkEnv :=
  { getMessagesResult := .ok exampleMsgs
    recipientOk := fun _ => true
    sendResult := fun _ _ => .ok () }

/-! ### Envelope and handler shape lemmas -/

theorem toEnvelope_isError (r : Except String String) :
    (toEnvelope r).isError = true → ∃ e, r = .error e ∧ toEnvelope r = errEnvelope e := by
  cases r with
  | ok s => intro h; simp [toEnvelope, okEnvelope] at h
  | error e => intro _; exact ⟨e, rfl, rfl⟩

theorem sendHandler_shape (send : String → String → Except String String)
    (a : Option JVal) :
    (handleSendMessageTool send a).isError = true →
    ∃ cause, handleSendMessageTool send a = errEnvelope cause := by
  intro h
  unfold handleSendMessageTool at h ⊢
  obtain ⟨e, -, h2⟩ := toEnvelope_isError _ h
  exact ⟨e, h2⟩

theorem readHandler_shape (read : JVal → Except String String) (a : Option JVal) :
    (handleReadMessagesTool read a).isError = true →
    ∃ cause, handleReadMessagesTool read a = errEnvelope cause := by
  intro h
  unfold handleReadMessagesTool at h ⊢
  obtain ⟨e, -, h2⟩ := toEnvelope_isError _ h
  exact ⟨e, h2⟩

theorem convsHandler_shape (getConvs : JVal → Except String String) (a : Option JVal) :
    (handleGetConversationsTool getConvs a).isError = true →
    ∃ cause, handleGetConversationsTool getConvs a = errEnvelope cause := by
  intro h
  unfold handleGetConversationsTool at h ⊢
  obtain ⟨e, -, h2⟩ := toEnvelope_isError _ h
  exact ⟨e, h2⟩

theorem detailsHandler_shape (getDetails : String → Except String String)
    (a : Option JVal) :
    (handleGetConversationDetailsTool getDetails a).isError = true →
    ∃ cause, handleGetConversationDetailsTool getDetails a = errEnvelope cause := by
  intro h
  unfold handleGetConversationDetailsTool at h ⊢
  obtain ⟨e, -, h2⟩ := toEnvelope_isError _ h
  exact ⟨e, h2⟩

theorem isObjectNonNull_truthy (v : JVal) :
    v.isObjectNonNull = true → v.truthy = true := by
  cases v <;> simp [JVal.isObjectNonNull, JVal.truthy]

theorem isSendMessageArgs_fields (v : JVal) (h : isSendMessageArgs v = true) :
    v.isObjectNonNull = true ∧
    ∃ r t, v.getField "recipient" = some (.jstr r) ∧ v.getField "text" = some (.jstr t) := by
  unfold isSendMessageArgs at h
  simp only [Bool.and_eq_true] at h
  obtain ⟨⟨⟨⟨h1, h2⟩, h3⟩, h4⟩, h5⟩ := h
  refine ⟨h1, ?_⟩
  cases hr : v.getField "recipient" with
  | none => rw [hr] at h2; simp at h2
  | some w =>
    cases ht : v.getField "text" with
    | none => rw [ht] at h3; simp at h3
    | some u =>
      rw [hr] at h4; rw [ht] at h5
      cases w <;> simp [JVal.isStr] at h4
      cases u <;> simp [JVal.isStr] at h5
      exact ⟨_, _, rfl, rfl⟩

theorem handleSendMessageTool_valid (send : String → String → Except String String)
    (v : JVal) (h : isSendMessageArgs v = true) :
    handleSendMessageTool send (some v) =
      toEnvelope (send ((v.getField "recipient").getD .jnull).asStr
        ((v.getField "text").getD .jnull).asStr) := by
  have ht := isObjectNonNull_truthy v (isSendMessageArgs_fields v h).1
  unfold handleSendMessageTool
  simp [ht, h]

theorem handleReadMessagesTool_valid (read : JVal → Except String String)
    (v : JVal) (h : isReadMessagesArgs v = true) :
    handleReadMessagesTool read (some v) = toEnvelope (read v) := by
  have ht := isObjectNonNull_truthy v h
  unfold handleReadMessagesTool
  simp [ht, h]

theorem handleGetConversationsTool_valid (getConvs : JVal → Except String String)
    (v : JVal) (h : isGetConversationsArgs v = true) :
    handleGetConversationsTool getConvs (some v) = toEnvelope (getConvs v) := by
  have ht := isObjectNonNull_truthy v h
  unfold handleGetConversationsTool
  simp [ht, h]

theorem getField_some_isObject (v : JVal) (key : String) (w : JVal)
    (h : v.getField key = some w) : v.isObjectNonNull = true := by
  cases v <;> first | rfl | simp [JVal.getField] at h

theorem handleGetConversationDetailsTool_valid (getDetails : String → Except String String)
    (v : JVal) (s : String) (h : v.getField "chatId" = some (.jstr s)) :
    handleGetConversationDetailsTool getDetails (some v) = toEnvelope (getDetails s) := by
  have hobj := getField_some_isObject v "chatId" _ h
  have ht := isObjectNonNull_truthy v hobj
  unfold handleGetConversationDetailsTool
  simp [h, ht, hobj, JVal.isStr, JVal.asStr]

/-! ### Conversation-map lemmas -/

theorem lookupConv_updateSelf (cid : String) (f : ConvAcc → ConvAcc)
    (map : List (String × ConvAcc)) :
    lookupConv cid (updateConvEntry cid f map) = (lookupConv cid map).map f := by
  induction map with
  | nil => rfl
  | cons kv rest ih =>
    obtain ⟨k, v⟩ := kv
    by_cases hk : k = cid
    · subst hk; simp [updateConvEntry, lookupConv]
    · simp [updateConvEntry, lookupConv, hk, ih]

theorem lookupConv_updateOther (cid k : String) (f : ConvAcc → ConvAcc)
    (map : List (String × ConvAcc)) (hne : cid ≠ k) :
    lookupConv cid (updateConvEntry k f map) = lookupConv cid map := by
  induction map with
  | nil => rfl
  | cons kv rest ih =>
    obtain ⟨k', v⟩ := kv
    by_cases hk : k' = k
    · subst hk
      simp [updateConvEntry, lookupConv, Ne.symm hne]
    · simp [updateConvEntry, lookupConv, hk, ih]

theorem lookupConv_append (cid k : String) (v : ConvAcc)
    (map : List (String × ConvAcc)) :
    lookupConv cid (map ++ [(k, v)]) =
      match lookupConv cid map with
      | some w => some w
      | none => if k = cid then some v else none := by
  induction map with
  | nil => simp [lookupConv]
  | cons kv rest ih =>
    obtain ⟨k', w⟩ := kv
    by_cases hk : k' = cid
    · simp [lookupConv, hk]
    · simp [lookupConv, hk, ih]

theorem lookupConv_convStep_self (map : List (String × ConvAcc)) (m : Msg) :
    lookupConv m.chatId (convStep map m) =
      some (updateAcc ((lookupConv m.chatId map).getD (initAcc m)) m) := by
  unfold convStep
  cases h : lookupConv m.chatId map with
  | some acc => simp [h, lookupConv_updateSelf]
  | none => simp [h, lookupConv_updateSelf, lookupConv_append]

theorem lookupConv_convStep_other (map : List (String × ConvAcc)) (m : Msg)
    (cid : String) (hne : cid ≠ m.chatId) :
    lookupConv cid (convStep map m) = lookupConv cid map := by
  unfold convStep
  cases h : lookupConv m.chatId map with
  | some acc => simp [h, lookupConv_updateOther _ _ _ _ hne]
  | none =>
    simp only [h, Option.isSome_none, Bool.false_eq_true, if_false,
      lookupConv_updateOther _ _ _ _ hne, lookupConv_append]
    cases lookupConv cid map <;> simp [Ne.symm hne]

theorem lookupConv_foldl (msgs : List Msg) :
    ∀ (map : List (String × ConvAcc)) (cid : String),
      lookupConv cid (msgs.foldl convStep map) =
        match lookupConv cid map with
        | some acc => some ((msgs.filter (fun m => m.chatId == cid)).foldl updateAcc acc)
        | none =>
          match msgs.filter (fun m => m.chatId == cid) with
          | [] => none
          | m :: ms => some ((m :: ms).foldl updateAcc (initAcc m)) := by
  induction msgs with
  | nil =>
    intro map cid
    cases h : lookupConv cid map <;> simp [h]
  | cons m rest ih =>
    intro map cid
    by_cases hc : m.chatId = cid
    · subst hc
      rw [List.foldl_cons, ih (convStep map m) m.chatId]
      rw [lookupConv_convStep_self]
      cases h : lookupConv m.chatId map with
      | some acc => simp [h, List.filter_cons]
      | none => simp [h, List.filter_cons]
    · have hbeq : (m.chatId == cid) = false := by
        simp [hc]
      rw [List.foldl_cons, ih (convStep map m) cid,
        lookupConv_convStep_other map m cid (fun he => hc he.symm)]
      simp [List.filter_cons, hbeq]

theorem lookupConv_group (msgs : List Msg) (cid : String) :
    lookupConv cid (groupConversations msgs) =
      match msgs.filter (fun m => m.chatId == cid) with
      | [] => none
      | m :: ms => some ((m :: ms).foldl updateAcc (initAcc m)) := by
  have h := lookupConv_foldl msgs [] cid
  simpa [groupConversations, lookupConv] using h

/-! ### Per-field behaviour of the accumulation loops -/

theorem updateAcc_chatId (c : ConvAcc) (m : Msg) :
    (updateAcc c m).chatId = c.chatId := by
  cases hf : m.isFromMe <;>
    simp [updateAcc, hf, apply_ite ConvAcc.chatId]

theorem updateAcc_unread (c : ConvAcc) (m : Msg) :
    (updateAcc c m).unreadCount =
      c.unreadCount + (if !m.isFromMe && !m.isRead then 1 else 0) := by
  cases hf : m.isFromMe <;> cases hr : m.isRead <;>
    simp [updateAcc, hf, hr, apply_ite ConvAcc.unreadCount]

theorem updateAcc_participants (c : ConvAcc) (m : Msg) :
    (updateAcc c m).participants =
      if m.isFromMe then c.participants
      else addParticipant c.participants m.sender := by
  cases hf : m.isFromMe <;>
    simp [updateAcc, hf, apply_ite ConvAcc.participants]

theorem updateAcc_last (c : ConvAcc) (m : Msg) :
    ((updateAcc c m).lastMessage, (updateAcc c m).lastDate) =
      lastStep (c.lastMessage, c.lastDate) m := by
  cases hf : m.isFromMe <;> by_cases hd : c.lastDate < m.date <;>
    simp [updateAcc, lastStep, hf, hd]

theorem foldl_updateAcc_unread (ms : List Msg) (acc : ConvAcc) :
    (ms.foldl updateAcc acc).unreadCount =
      acc.unreadCount + ms.countP (fun m => !m.isFromMe && !m.isRead) := by
  induction ms generalizing acc with
  | nil => simp
  | cons m rest ih =>
    cases hc : (!m.isFromMe && !m.isRead) <;>
      (simp [List.foldl_cons, ih, updateAcc_unread, List.countP_cons, hc]; try omega)

theorem mem_addParticipant {ps : List String} {s p : String}
    (h : p ∈ addParticipant ps s) : p ∈ ps ∨ p = s := by
  unfold addParticipant at h
  split at h
  · exact .inl h
  · rcases List.mem_append.mp h with h | h
    · exact .inl h
    · simp at h; exact .inr h

theorem foldl_updateAcc_participants (ms : List Msg) (acc : ConvAcc) (p : String)
    (h : p ∈ (ms.foldl updateAcc acc).participants) :
    p ∈ acc.participants ∨ ∃ m ∈ ms, m.isFromMe = false ∧ m.sender = p := by
  induction ms generalizing acc with
  | nil => exact .inl h
  | cons m rest ih =>
    rcases ih (updateAcc acc m) h with h' | ⟨m', hm', h1, h2⟩
    · rw [updateAcc_participants] at h'
      cases hf : m.isFromMe with
      | true => rw [hf] at h'; simp at h'; exact .inl h'
      | false =>
        rw [hf] at h'; simp at h'
        rcases mem_addParticipant h' with hmem | rfl
        · exact .inl hmem
        · exact .inr ⟨m, List.mem_cons_self m rest, hf, rfl⟩
    · exact .inr ⟨m', List.mem_cons_of_mem m hm', h1, h2⟩

theorem foldl_updateAcc_last (ms : List Msg) (acc : ConvAcc) :
    ((ms.foldl updateAcc acc).lastMessage, (ms.foldl updateAcc acc).lastDate) =
      ms.foldl lastStep (acc.lastMessage, acc.lastDate) := by
  induction ms generalizing acc with
  | nil => rfl
  | cons m rest ih =>
    rw [List.foldl_cons, List.foldl_cons, ih, updateAcc_last]

/-! ### Characterisation of the last-message selection -/

theorem foldl_lastStep_char (ms : List Msg) (p : String × Nat) :
    ((ms.foldl lastStep p) = p ∧ ∀ m ∈ ms, m.date ≤ p.2)
  ∨ (p.2 < (ms.foldl lastStep p).2
      ∧ (∀ m ∈ ms, m.date ≤ (ms.foldl lastStep p).2)
      ∧ ∃ mf, ms.find? (fun m => m.date == (ms.foldl lastStep p).2) = some mf
            ∧ (ms.foldl lastStep p).1 = textOrDefault mf.text) := by
  induction ms generalizing p with
  | nil => exact .inl ⟨rfl, by simp⟩
  | cons m rest ih =>
    rw [List.foldl_cons]
    by_cases hd : p.2 < m.date
    · have hstep : lastStep p m = (textOrDefault m.text, m.date) := by
        simp [lastStep, hd]
      rw [hstep]
      rcases ih (textOrDefault m.text, m.date) with ⟨heq, hb⟩ | ⟨hlt, hb, mf, hfind, htext⟩
      · right
        rw [heq]
        refine ⟨hd, ?_, m, ?_, rfl⟩
        · intro x hx
          rcases List.mem_cons.mp hx with rfl | hx
          · exact le_refl _
          · exact hb x hx
        · rw [List.find?_cons_of_pos]
          simp
      · right
        refine ⟨lt_trans hd hlt, ?_, mf, ?_, htext⟩
        · intro x hx
          rcases List.mem_cons.mp hx with rfl | hx
          · exact le_of_lt hlt
          · exact hb x hx
        · rw [List.find?_cons_of_neg, hfind]
          simp
          exact Nat.ne_of_lt hlt
    · have hstep : lastStep p m = p := by
        simp [lastStep, hd]
      rw [hstep]
      rcases ih p with ⟨heq, hb⟩ | ⟨hlt, hb, mf, hfind, htext⟩
      · left
        refine ⟨heq, ?_⟩
        intro x hx
        rcases List.mem_cons.mp hx with rfl | hx
        · exact Nat.le_of_not_lt hd
        · exact hb x hx
      · right
        refine ⟨hlt, ?_, mf, ?_, htext⟩
        · intro x hx
          rcases List.mem_cons.mp hx with rfl | hx
          · exact le_trans (Nat.le_of_not_lt hd) (le_of_lt hlt)
          · exact hb x hx
        · rw [List.find?_cons_of_neg, hfind]
          simp
          exact Nat.ne_of_lt (lt_of_le_of_lt (Nat.le_of_not_lt hd) hlt)

theorem convFold_last_char (mh : Msg) (mt : List Msg) :
    (∀ m ∈ mh :: mt, m.date ≤ ((mh :: mt).foldl updateAcc (initAcc mh)).lastDate)
    ∧ ∃ mf, (mh :: mt).find?
          (fun m => m.date == ((mh :: mt).foldl updateAcc (initAcc mh)).lastDate)
          = some mf
        ∧ ((mh :: mt).foldl updateAcc (initAcc mh)).lastMessage
          = textOrDefault mf.text := by
  have hpair := foldl_updateAcc_last (mh :: mt) (initAcc mh)
  have hfirst : (mh :: mt).foldl lastStep
      ((initAcc mh).lastMessage, (initAcc mh).lastDate)
      = mt.foldl lastStep (textOrDefault mh.text, mh.date) := by
    rw [List.foldl_cons]
    simp [initAcc, lastStep]
  rw [hfirst] at hpair
  have hmsg : ((mh :: mt).foldl updateAcc (initAcc mh)).lastMessage
      = (mt.foldl lastStep (textOrDefault mh.text, mh.date)).1 :=
    congrArg Prod.fst hpair
  have hdate : ((mh :: mt).foldl updateAcc (initAcc mh)).lastDate
      = (mt.foldl lastStep (textOrDefault mh.text, mh.date)).2 :=
    congrArg Prod.snd hpair
  rcases foldl_lastStep_char mt (textOrDefault mh.text, mh.date)
    with ⟨heq, hb⟩ | ⟨hlt, hb, mf, hfind, htext⟩
  · rw [heq] at hmsg hdate
    constructor
    · intro x hx
      rcases List.mem_cons.mp hx with rfl | hx
      · rw [hdate]
      · rw [hdate]; exact hb x hx
    · refine ⟨mh, ?_, by rw [hmsg]⟩
      have hp : (mh.date == ((mh :: mt).foldl updateAcc (initAcc mh)).lastDate) = true := by
        rw [hdate]
        exact beq_self_eq_true _
      rw [List.find?_cons_of_pos]
      exact hp
  · constructor
    · intro x hx
      rcases List.mem_cons.mp hx with rfl | hx
      · rw [hdate]; exact le_of_lt hlt
      · rw [hdate]; exact hb x hx
    · refine ⟨mf, ?_, by rw [hmsg]; exact htext⟩
      have hp : (mh.date == ((mh :: mt).foldl updateAcc (initAcc mh)).lastDate) = false := by
        rw [hdate]
        simp only [beq_eq_false_iff_ne, ne_eq]
        exact Nat.ne_of_lt hlt
      rw [List.find?_cons_of_neg, hdate]
      · exact hfind
      · rw [Bool.not_eq_true]
        exact hp

/-! ### The detail loop -/

theorem detailStep_unread (acc : DetailAcc) (m : Msg) :
    (detailStep acc m).unreadCount =
      acc.unreadCount + (if !m.isFromMe && !m.isRead then 1 else 0) := by
  cases hf : m.isFromMe <;> cases hr : m.isRead <;> cases hg : m.isGroupChat <;>
    cases hl : acc.lastDate <;>
      simp [detailStep, hf, hr, hg, hl, apply_ite DetailAcc.unreadCount]

theorem detailStep_participants (acc : DetailAcc) (m : Msg) :
    (detailStep acc m).participants =
      if m.isFromMe then acc.participants
      else addParticipant acc.participants m.sender := by
  cases hf : m.isFromMe <;> cases hg : m.isGroupChat <;> cases hl : acc.lastDate <;>
    simp [detailStep, hf, hg, hl, apply_ite DetailAcc.participants]

theorem detailStep_last (acc : DetailAcc) (m : Msg) :
    ((detailStep acc m).lastMessage, (detailStep acc m).lastDate) =
      lastStepO (acc.lastMessage, acc.lastDate) m := by
  cases hf : m.isFromMe <;> cases hg : m.isGroupChat <;> cases hl : acc.lastDate <;>
    simp [detailStep, lastStepO, hf, hg, hl, apply_ite DetailAcc.lastMessage,
      apply_ite DetailAcc.lastDate] <;>
    (try split) <;> rfl

theorem foldl_detailStep_unread (ms : List Msg) (acc : DetailAcc) :
    (ms.foldl detailStep acc).unreadCount =
      acc.unreadCount + ms.countP (fun m => !m.isFromMe && !m.isRead) := by
  induction ms generalizing acc with
  | nil => simp
  | cons m rest ih =>
    cases hc : (!m.isFromMe && !m.isRead) <;>
      (simp [List.foldl_cons, ih, detailStep_unread, List.countP_cons, hc]; try omega)

theorem foldl_detailStep_participants (ms : List Msg) (acc : DetailAcc) (p : String)
    (h : p ∈ (ms.foldl detailStep acc).participants) :
    p ∈ acc.participants ∨ ∃ m ∈ ms, m.isFromMe = false ∧ m.sender = p := by
  induction ms generalizing acc with
  | nil => exact .inl h
  | cons m rest ih =>
    rcases ih (detailStep acc m) h with h' | ⟨m', hm', h1, h2⟩
    · rw [detailStep_participants] at h'
      cases hf : m.isFromMe with
      | true => rw [hf] at h'; simp at h'; exact .inl h'
      | false =>
        rw [hf] at h'; simp at h'
        rcases mem_addParticipant h' with hmem | rfl
        · exact .inl hmem
        · exact .inr ⟨m, List.mem_cons_self m rest, hf, rfl⟩
    · exact .inr ⟨m', List.mem_cons_of_mem m hm', h1, h2⟩

theorem foldl_detailStep_last (ms : List Msg) (acc : DetailAcc) :
    ((ms.foldl detailStep acc).lastMessage, (ms.foldl detailStep acc).lastDate) =
      ms.foldl lastStepO (acc.lastMessage, acc.lastDate) := by
  induction ms generalizing acc with
  | nil => rfl
  | cons m rest ih =>
    rw [List.foldl_cons, List.foldl_cons, ih, detailStep_last]

theorem foldl_lastStepO_some (ms : List Msg) (s : String) (d : Nat) :
    ms.foldl lastStepO (s, some d) =
      ((ms.foldl lastStep (s, d)).1, some (ms.foldl lastStep (s, d)).2) := by
  induction ms generalizing s d with
  | nil => rfl
  | cons m rest ih =>
    rw [List.foldl_cons, List.foldl_cons]
    by_cases hd : d < m.date
    · have h1 : lastStepO (s, some d) m = (textOrDefault m.text, some m.date) := by
        simp [lastStepO, hd]
      have h2 : lastStep (s, d) m = (textOrDefault m.text, m.date) := by
        simp [lastStep, hd]
      rw [h1, h2, ih]
    · have h1 : lastStepO (s, some d) m = (s, some d) := by
        simp [lastStepO, hd]
      have h2 : lastStep (s, d) m = (s, d) := by
        simp [lastStep, hd]
      rw [h1, h2, ih]

theorem detailFold_last_char (mh : Msg) (mt : List Msg) :
    ∃ t, ((mh :: mt).foldl detailStep detailInit).lastDate = some t
      ∧ (∀ m ∈ mh :: mt, m.date ≤ t)
      ∧ ∃ mf, (mh :: mt).find? (fun m => m.date == t) = some mf
            ∧ ((mh :: mt).foldl detailStep detailInit).lastMessage
              = textOrDefault mf.text := by
  have hpair := foldl_detailStep_last (mh :: mt) detailInit
  have hfirst : (mh :: mt).foldl lastStepO (detailInit.lastMessage, detailInit.lastDate)
      = mt.foldl lastStepO (textOrDefault mh.text, some mh.date) := by
    rw [List.foldl_cons]
    simp [detailInit, lastStepO]
  rw [hfirst, foldl_lastStepO_some] at hpair
  have hmsg := congrArg Prod.fst hpair
  have hdate := congrArg Prod.snd hpair
  simp only at hmsg hdate
  refine ⟨(mt.foldl lastStep (textOrDefault mh.text, mh.date)).2, hdate, ?_, ?_⟩
  · intro x hx
    rcases foldl_lastStep_char mt (textOrDefault mh.text, mh.date)
      with ⟨heq, hb⟩ | ⟨hlt, hb, mf, hfind, htext⟩
    · rw [heq]
      rcases List.mem_cons.mp hx with rfl | hx
      · exact le_refl _
      · exact hb x hx
    · rcases List.mem_cons.mp hx with rfl | hx
      · exact le_of_lt hlt
      · exact hb x hx
  · rcases foldl_lastStep_char mt (textOrDefault mh.text, mh.date)
      with ⟨heq, hb⟩ | ⟨hlt, hb, mf, hfind, htext⟩
    · refine ⟨mh, ?_, by rw [hmsg, heq]⟩
      have hp : (mh.date == (mt.foldl lastStep (textOrDefault mh.text, mh.date)).2) = true := by
        rw [heq]
        exact beq_self_eq_true _
      rw [List.find?_cons_of_pos]
      exact hp
    · refine ⟨mf, ?_, by rw [hmsg]; exact htext⟩
      have hp : (mh.date == (mt.foldl lastStep (textOrDefault mh.text, mh.date)).2) = false := by
        simp only [beq_eq_false_iff_ne, ne_eq]
        exact Nat.ne_of_lt hlt
      rw [List.find?_cons_of_neg]
      · exact hfind
      · rw [Bool.not_eq_true]
        exact hp

/-! ### Sorting lemmas -/

theorem insertByDateDesc_perm (c : ConvAcc) (l : List ConvAcc) :
    (insertByDateDesc c l).Perm (c :: l) := by
  induction l with
  | nil => exact List.Perm.refl _
  | cons d ds ih =>
    unfold insertByDateDesc
    split
    · exact (ih.cons d).trans (List.Perm.swap c d ds)
    · exact List.Perm.refl _

theorem sortByDateDesc_perm (l : List ConvAcc) :
    (sortByDateDesc l).Perm l := by
  induction l with
  | nil => exact List.Perm.refl _
  | cons c cs ih =>
    exact (insertByDateDesc_perm c (sortByDateDesc cs)).trans (ih.cons c)

theorem pairwise_insertByDateDesc (c : ConvAcc) (l : List ConvAcc)
    (h : l.Pairwise (fun a b => b.lastDate ≤ a.lastDate)) :
    (insertByDateDesc c l).Pairwise (fun a b => b.lastDate ≤ a.lastDate) := by
  induction l with
  | nil => simp [insertByDateDesc]
  | cons d ds ih =>
    rcases List.pairwise_cons.mp h with ⟨hd, hds⟩
    unfold insertByDateDesc
    split
    case isTrue hlt =>
      refine List.pairwise_cons.mpr ⟨?_, ih hds⟩
      intro x hx
      rcases List.mem_cons.mp ((insertByDateDesc_perm c ds).mem_iff.mp hx) with rfl | hx
      · exact le_of_lt hlt
      · exact hd x hx
    case isFalse hge =>
      refine List.pairwise_cons.mpr ⟨?_, h⟩
      intro x hx
      rcases List.mem_cons.mp hx with rfl | hx
      · exact Nat.le_of_not_lt hge
      · exact le_trans (hd x hx) (Nat.le_of_not_lt hge)

theorem pairwise_sortByDateDesc (l : List ConvAcc) :
    (sortByDateDesc l).Pairwise (fun a b => b.lastDate ≤ a.lastDate) := by
  induction l with
  | nil => simp [sortByDateDesc]
  | cons c cs ih => exact pairwise_insertByDateDesc c (sortByDateDesc cs) ih

/-! ### Well-formedness of the conversation map -/

theorem updateConvEntry_keys (cid : String) (f : ConvAcc → ConvAcc)
    (map : List (String × ConvAcc)) :
    (updateConvEntry cid f map).map Prod.fst = map.map Prod.fst := by
  induction map with
  | nil => rfl
  | cons kv rest ih =>
    obtain ⟨k, v⟩ := kv
    by_cases hk : k = cid <;> simp [updateConvEntry, hk, ih]

theorem mem_updateConvEntry (cid : String) (f : ConvAcc → ConvAcc)
    (map : List (String × ConvAcc)) (e : String × ConvAcc)
    (h : e ∈ updateConvEntry cid f map) :
    e ∈ map ∨ ∃ v, (e.1, v) ∈ map ∧ e.2 = f v := by
  induction map with
  | nil => simp [updateConvEntry] at h
  | cons kv rest ih =>
    obtain ⟨k, v⟩ := kv
    by_cases hk : k = cid
    · rw [updateConvEntry, if_pos hk] at h
      rcases List.mem_cons.mp h with rfl | h
      · exact .inr ⟨v, List.mem_cons_self _ _, rfl⟩
      · exact .inl (List.mem_cons_of_mem _ h)
    · rw [updateConvEntry, if_neg hk] at h
      rcases List.mem_cons.mp h with rfl | h
      · exact .inl (List.mem_cons_self _ _)
      · rcases ih h with h' | ⟨w, hw, he⟩
        · exact .inl (List.mem_cons_of_mem _ h')
        · exact .inr ⟨w, List.mem_cons_of_mem _ hw, he⟩

theorem lookupConv_eq_none (cid : String) (map : List (String × ConvAcc)) :
    lookupConv cid map = none ↔ cid ∉ map.map Prod.fst := by
  induction map with
  | nil => simp [lookupConv]
  | cons kv rest ih =>
    obtain ⟨k, v⟩ := kv
    by_cases hk : k = cid
    · subst hk; simp [lookupConv]
    · simp [lookupConv, hk, ih, Ne.symm hk]

theorem convStep_keys (map : List (String × ConvAcc)) (m : Msg) :
    (convStep map m).map Prod.fst =
      if (lookupConv m.chatId map).isSome then map.map Prod.fst
      else map.map Prod.fst ++ [m.chatId] := by
  unfold convStep
  cases h : lookupConv m.chatId map with
  | some acc => simp [h, updateConvEntry_keys]
  | none => simp [h, updateConvEntry_keys]

theorem convStep_entries (map : List (String × ConvAcc)) (m : Msg)
    (h : ∀ e ∈ map, (Prod.snd e).chatId = Prod.fst e) :
    ∀ e ∈ convStep map m, (Prod.snd e).chatId = Prod.fst e := by
  intro e he
  unfold convStep at he
  rcases mem_updateConvEntry _ _ _ _ he with h' | ⟨v, hv, hev⟩
  · cases hs : lookupConv m.chatId map
    · rw [hs] at h'
      simp at h'
      rcases h' with h' | h'
      · exact h e h'
      · rw [h']; rfl
    · rw [hs] at h'
      simp at h'
      exact h e h'
  · cases hs : lookupConv m.chatId map
    · rw [hs] at hv
      simp at hv
      rcases hv with hv | ⟨h1, h2⟩
      · rw [hev, updateAcc_chatId]
        exact h (e.1, v) hv
      · rw [hev, updateAcc_chatId, h2, h1]
        rfl
    · rw [hs] at hv
      simp at hv
      rw [hev, updateAcc_chatId]
      exact h (e.1, v) hv

theorem foldl_convStep_wf (msgs : List Msg) :
    ∀ map : List (String × ConvAcc),
      (map.map Prod.fst).Nodup →
      (∀ e ∈ map, (Prod.snd e).chatId = Prod.fst e) →
      ((msgs.foldl convStep map).map Prod.fst).Nodup
      ∧ (∀ e ∈ msgs.foldl convStep map, (Prod.snd e).chatId = Prod.fst e)
      ∧ (∀ k ∈ (msgs.foldl convStep map).map Prod.fst,
          k ∈ map.map Prod.fst ∨ k ∈ msgs.map Msg.chatId) := by
  induction msgs with
  | nil =>
    intro map h1 h2
    exact ⟨h1, h2, fun k hk => .inl hk⟩
  | cons m rest ih =>
    intro map h1 h2
    have hkeys := convStep_keys map m
    have hnodup : ((convStep map m).map Prod.fst).Nodup := by
      rw [hkeys]
      split
      · exact h1
      case isFalse hnone =>
        have : m.chatId ∉ map.map Prod.fst := by
          rw [← lookupConv_eq_none]
          cases hl : lookupConv m.chatId map
          · rfl
          · rw [hl] at hnone; simp at hnone
        simp [List.nodup_append, h1, this]
    have hentries := convStep_entries map m h2
    obtain ⟨w1, w2, w3⟩ := ih (convStep map m) hnodup hentries
    refine ⟨w1, w2, ?_⟩
    intro k hk
    rcases w3 k hk with hk' | hk'
    · rw [hkeys] at hk'
      split at hk'
      · exact .inl hk'
      · rcases List.mem_append.mp hk' with hk' | hk'
        · exact .inl hk'
        · simp at hk'
          subst hk'
          exact .inr (by simp)
    · exact .inr (by simp [hk'])

theorem group_keys_nodup (msgs : List Msg) :
    ((groupConversations msgs).map Prod.fst).Nodup :=
  (foldl_convStep_wf msgs [] (by simp) (by simp)).1

theorem group_entries_chatId (msgs : List Msg) :
    ∀ e ∈ groupConversations msgs, (Prod.snd e).chatId = Prod.fst e :=
  (foldl_convStep_wf msgs [] (by simp) (by simp)).2.1

theorem group_keys_from_msgs (msgs : List Msg) :
    ∀ k ∈ (groupConversations msgs).map Prod.fst, k ∈ msgs.map Msg.chatId := by
  intro k hk
  rcases (foldl_convStep_wf msgs [] (by simp) (by simp)).2.2 k hk with h | h
  · simp at h
  · exact h

/-! ### Claim theorems -/

/-- C10: for any two get-conversations argument records that agree on `limit`
and differ only in `offset`, and one and the same SDK snapshot environment,
`getConversations` produces identical output: the accepted `offset` member is
never read. -/
theorem c10_offset_never_read (env : SdkEnv) (l o₁ o₂ : Option Nat) :
    getConversations env { limit := l, offset := o₁ }
      = getConversations env { limit := l, offset := o₂ } := rfl

/-- C5 counterexample: an argument object whose `limit` member is the string
"ten" (not a number) is accepted by the read-messages type guard and forwarded
to the client, contradicting the claim that a mistyped `limit` is rejected
with an invalid-arguments failure. -/
theorem c5_counterexample :
    isReadMessagesArgs (.jobj [("limit", .jstr "ten")]) = true
    ∧ handleReadMessagesTool (fun _ => .ok "messages")
        (some (.jobj [("limit", .jstr "ten")])) = okEnvelope "messages" :=
  ⟨rfl, rfl⟩

/-- C5 (amended): for read-messages all argument fields are optional, and the
only validation performed is that the argument is a non-null object; the types
of present fields are not checked, and any non-null object is forwarded to the
client unchanged. -/
theorem c5_read_guard_object_only :
    (∀ fields, isReadMessagesArgs (.jobj fields) = true)
    ∧ (∀ elems, isReadMessagesArgs (.jarr elems) = true)
    ∧ isReadMessagesArgs .jnull = false
    ∧ (∀ b, isReadMessagesArgs (.jbool b) = false)
    ∧ (∀ n, isReadMessagesArgs (.jnum n) = false)
    ∧ (∀ s, isReadMessagesArgs (.jstr s) = false)
    ∧ (∀ (read : JVal → Except String String) (fields : List (String × JVal)),
        handleReadMessagesTool read (some (.jobj fields))
          = toEnvelope (read (.jobj fields))) :=
  ⟨fun _ => rfl, fun _ => rfl, rfl, fun _ => rfl, fun _ => rfl, fun _ => rfl,
    fun read fields => handleReadMessagesTool_valid read (.jobj fields) rfl⟩

/-- C7: the dispatcher raises a protocol-level method-not-found fault for
every unregistered operation name, routes each of the four registered names to
its handler, and any result it does return with the error flag set is a normal
result envelope carrying an `Error: `-marked text, never a protocol fault. -/
theorem c7_dispatch :
    (∀ (send : String → String → Except String String)
        (read getConvs : JVal → Except String String)
        (getDetails : String → Except String String)
        (name : String) (args : Option JVal),
       name ≠ "photon_send_message" → name ≠ "photon_read_messages" →
       name ≠ "photon_get_conversations" → name ≠ "photon_get_conversation_details" →
       dispatchCallTool send read getConvs getDetails name args
         = .error { code := .MethodNotFound, message := "Unknown tool: " ++ name })
    ∧ (∀ (send : String → String → Except String String)
          (read getConvs : JVal → Except String String)
          (getDetails : String → Except String String) (args : Option JVal),
        dispatchCallTool send read getConvs getDetails "photon_send_message" args
          = .ok (handleSendMessageTool send args)
        ∧ dispatchCallTool send read getConvs getDetails "photon_read_messages" args
          = .ok (handleReadMessagesTool read args)
        ∧ dispatchCallTool send read getConvs getDetails "photon_get_conversations" args
          = .ok (handleGetConversationsTool getConvs args)
        ∧ dispatchCallTool send read getConvs getDetails "photon_get_conversation_details" args
          = .ok (handleGetConversationDetailsTool getDetails args))
    ∧ (∀ (send : String → String → Except String String)
          (read getConvs : JVal → Except String String)
          (getDetails : String → Except String String)
          (name : String) (args : Option JVal) (r : CallToolResult),
        dispatchCallTool send read getConvs getDetails name args = .ok r →
        r.isError = true → ∃ cause, r = errEnvelope cause) := by
  refine ⟨?_, ?_, ?_⟩
  · intro send read getConvs getDetails name args h1 h2 h3 h4
    unfold dispatchCallTool
    rw [if_neg h1, if_neg h2, if_neg h3, if_neg h4]
  · intro send read getConvs getDetails args
    exact ⟨rfl, rfl, rfl, rfl⟩
  · intro send read getConvs getDetails name args r hdis hr
    unfold dispatchCallTool at hdis
    split_ifs at hdis
    all_goals
      first
        | exact Except.noConfusion hdis
        | (injection hdis with h; subst h;
           first
             | exact sendHandler_shape _ args hr
             | exact readHandler_shape _ args hr
             | exact convsHandler_shape _ args hr
             | exact detailsHandler_shape _ args hr)

/-- Witness for C7 at concrete inputs: the unknown name "photon_foo" produces
the protocol fault, and a registered name with a throwing client still comes
back as a normal error-flagged result. -/
theorem c7_dispatch_witness :
    dispatchCallTool (fun _ _ => .ok "") (fun _ => .ok "") (fun _ => .ok "")
        (fun _ => .ok "") "photon_foo" none
      = .error { code := .MethodNotFound, message := "Unknown tool: " ++ "photon_foo" }
    ∧ ∃ cause,
        (handleReadMessagesTool (fun _ => .error "down") (some (.jobj [])))
          = errEnvelope cause := by
  obtain ⟨h1, h2, h3⟩ := c7_dispatch
  refine ⟨h1 _ _ _ _ "photon_foo" none (by decide) (by decide) (by decide) (by decide), ?_⟩
  exact h3 (fun _ _ => .ok "") (fun _ => .error "down") (fun _ => .ok "") (fun _ => .ok "")
    "photon_read_messages" (some (.jobj []))
    (handleReadMessagesTool (fun _ => .error "down") (some (.jobj [])))
    (h2 _ _ _ _ _).2.1 rfl

/-- C1: no exception escapes a tool handler (each handler is a total function
into result envelopes); every error-flagged result any handler returns is the
envelope `Error: ` followed by the underlying cause, and when the client call
throws after validation passed, the handler returns exactly that envelope with
the thrown message as the cause. -/
theorem c1_handlers_never_escape :
    (∀ (send : String → String → Except String String) (a : Option JVal),
       (handleSendMessageTool send a).isError = true →
       ∃ cause, handleSendMessageTool send a = errEnvelope cause)
    ∧ (∀ (read : JVal → Except String String) (a : Option JVal),
       (handleReadMessagesTool read a).isError = true →
       ∃ cause, handleReadMessagesTool read a = errEnvelope cause)
    ∧ (∀ (getConvs : JVal → Except String String) (a : Option JVal),
       (handleGetConversationsTool getConvs a).isError = true →
       ∃ cause, handleGetConversationsTool getConvs a = errEnvelope cause)
    ∧ (∀ (getDetails : String → Except String String) (a : Option JVal),
       (handleGetConversationDetailsTool getDetails a).isError = true →
       ∃ cause, handleGetConversationDetailsTool getDetails a = errEnvelope cause)
    ∧ (∀ (e : String) (v : JVal), isSendMessageArgs v = true →
        handleSendMessageTool (fun _ _ => .error e) (some v) = errEnvelope e)
    ∧ (∀ (e : String) (v : JVal), isReadMessagesArgs v = true →
        handleReadMessagesTool (fun _ => .error e) (some v) = errEnvelope e)
    ∧ (∀ (e : String) (v : JVal), isGetConversationsArgs v = true →
        handleGetConversationsTool (fun _ => .error e) (some v) = errEnvelope e)
    ∧ (∀ (e : String) (v : JVal) (s : String), v.getField "chatId" = some (.jstr s) →
        handleGetConversationDetailsTool (fun _ => .error e) (some v) = errEnvelope e) := by
  refine ⟨sendHandler_shape, readHandler_shape, convsHandler_shape, detailsHandler_shape,
    ?_, ?_, ?_, ?_⟩
  · intro e v h
    rw [handleSendMessageTool_valid _ v h]
    rfl
  · intro e v h
    rw [handleReadMessagesTool_valid _ v h]
    rfl
  · intro e v h
    rw [handleGetConversationsTool_valid _ v h]
    rfl
  · intro e v s h
    rw [handleGetConversationDetailsTool_valid _ v s h]
    rfl

/-- Witness for C1 at concrete inputs: a throwing client behind each handler
yields the `Error: `-marked envelope with the thrown cause. -/
theorem c1_handlers_never_escape_witness :
    (∃ cause, handleSendMessageTool (fun _ _ => .error "boom") none = errEnvelope cause)
    ∧ handleSendMessageTool (fun _ _ => .error "boom")
        (some (.jobj [("recipient", .jstr "+15551234567"), ("text", .jstr "hi")]))
      = errEnvelope "boom"
    ∧ handleReadMessagesTool (fun _ => .error "boom") (some (.jobj [])) = errEnvelope "boom"
    ∧ handleGetConversationsTool (fun _ => .error "boom") (some (.jobj [])) = errEnvelope "boom"
    ∧ handleGetConversationDetailsTool (fun _ => .error "boom")
        (some (.jobj [("chatId", .jstr "c1")])) = errEnvelope "boom" := by
  obtain ⟨h1, h2, h3, h4, h5, h6, h7, h8⟩ := c1_handlers_never_escape
  exact ⟨h1 _ none rfl, h5 "boom" _ rfl, h6 "boom" _ rfl, h7 "boom" _ rfl,
    h8 "boom" _ "c1" rfl⟩

theorem toEnvelope_ok (r : Except String String) :
    (toEnvelope r).isError = false → ∃ s, r = .ok s := by
  cases r with
  | ok s => intro _; exact ⟨s, rfl⟩
  | error e => intro h; simp [toEnvelope, errEnvelope] at h

theorem sendMessage_ok_nonempty (env : SdkEnv) (r t s : String)
    (h : sendMessage env r t = .ok s) : r ≠ "" ∧ t ≠ "" := by
  refine ⟨?_, ?_⟩ <;> intro hc <;> rw [hc] at h <;> simp [sendMessage, wrapErr] at h

/-- C8: composed with the real client logic, a send succeeds only when the
argument object carries `recipient` and `text` as non-empty strings; and a
send-message argument object with no `text` member is answered by the
error-flagged envelope whose text contains `Required: recipient, text`. -/
theorem c8_send_validation :
    (∀ (env : SdkEnv) (a : Option JVal),
       (handleSendMessageTool (sendMessage env) a).isError = false →
       ∃ v r t, a = some v
         ∧ v.getField "recipient" = some (.jstr r)
         ∧ v.getField "text" = some (.jstr t)
         ∧ r ≠ "" ∧ t ≠ "")
    ∧ (∀ (env : SdkEnv) (fields : List (String × JVal)),
        (JVal.jobj fields).getField "text" = none →
        handleSendMessageTool (sendMessage env) (some (.jobj fields))
          = errEnvelope "Invalid arguments for photon_send_message. Required: recipient, text"
        ∧ ∃ s₁ s₂,
            "Error: Invalid arguments for photon_send_message. Required: recipient, text"
              = s₁ ++ ("Required: recipient, text" ++ s₂)) := by
  constructor
  · intro env a h
    match a with
    | none => simp [handleSendMessageTool, toEnvelope, errEnvelope] at h
    | some v =>
      cases htr : v.truthy with
      | false => simp [handleSendMessageTool, htr, toEnvelope, errEnvelope] at h
      | true =>
        cases hg : isSendMessageArgs v with
        | false => simp [handleSendMessageTool, htr, hg, toEnvelope, errEnvelope] at h
        | true =>
          obtain ⟨-, r, t, hr, ht⟩ := isSendMessageArgs_fields v hg
          rw [handleSendMessageTool_valid _ v hg] at h
          obtain ⟨s, hs⟩ := toEnvelope_ok _ h
          rw [hr, ht] at hs
          simp only [Option.getD_some, JVal.asStr] at hs
          obtain ⟨hr1, ht1⟩ := sendMessage_ok_nonempty env r t s hs
          exact ⟨v, r, t, rfl, hr, ht, hr1, ht1⟩
  · intro env fields hnone
    have hg : isSendMessageArgs (.jobj fields) = false := by
      unfold isSendMessageArgs
      rw [hnone]
      simp
    constructor
    · simp [handleSendMessageTool, hg, JVal.truthy, toEnvelope]
    · exact ⟨"Error: Invalid arguments for photon_send_message. ", "", rfl⟩

/-- Witness for C8 at concrete inputs: a successful concrete send exposes the
non-empty recipient and text, and a concrete object missing `text` gets the
required-fields error envelope. -/
theorem c8_send_validation_witness :
    (∃ v r t,
        (some (JVal.jobj [("recipient", .jstr "+15551234567"), ("text", .jstr "hi")])) = some v
        ∧ v.getField "recipient" = some (.jstr r)
        ∧ v.getField "text" = some (.jstr t)
        ∧ r ≠ "" ∧ t ≠ "")
    ∧ handleSendMessageTool (sendMessage emptyEnv) (some (.jobj [("recipient", .jstr "+1")]))
        = errEnvelope "Invalid arguments for photon_send_message. Required: recipient, text" := by
  obtain ⟨h1, h2⟩ := c8_send_validation
  exact ⟨h1 emptyEnv _ rfl, (h2 emptyEnv [("recipient", .jstr "+1")] rfl).1⟩

/-- C6: when the SDK snapshot holds no matching messages, each retrieval
operation returns its sentinel text as a normal success: `No messages found`
for read (given a valid or absent recipient filter), `No conversations found`
for the listing, and `No messages found for chat ID: X` for details of a
(per the validator, non-empty) chat id X matched by no record. -/
theorem c6_empty_sentinels :
    (∀ (env : SdkEnv) (args : ReadMessagesArgs),
       env.getMessagesResult = .ok [] →
       (∀ r, args.recipient = some r → r ≠ "" → env.recipientOk r = true) →
       readMessages env args = .ok "No messages found")
    ∧ (∀ (env : SdkEnv) (args : GetConversationsArgs),
       env.getMessagesResult = .ok [] →
       getConversations env args = .ok "No conversations found")
    ∧ (∀ (env : SdkEnv) (cid : String) (msgs : List Msg),
       env.getMessagesResult = .ok msgs → cid ≠ "" →
       (∀ m ∈ msgs, m.chatId ≠ cid) →
       getConversationDetails env cid = .ok ("No messages found for chat ID: " ++ cid)) := by
  refine ⟨?_, ?_, ?_⟩
  · intro env args hempty hrec
    cases hra : args.recipient with
    | none => simp [readMessages, wrapErr, hra, hempty]
    | some r =>
      by_cases hr0 : r = ""
      · simp [readMessages, wrapErr, hra, hr0, hempty]
      · have hok := hrec r hra hr0
        simp [readMessages, wrapErr, hra, hr0, hempty, hok]
  · intro env args h
    simp [getConversations, wrapErr, h]
  · intro env cid msgs h hne hnomatch
    have hfilter : msgs.filter (fun m => m.chatId == cid) = [] := by
      rw [List.filter_eq_nil_iff]
      intro m hm
      simp [hnomatch m hm]
    simp [getConversationDetails, wrapErr, h, hne, hfilter]

/-- Witness for C6 at concrete inputs: empty snapshot for read and list, and
a chat id absent from the example snapshot for details. -/
theorem c6_empty_sentinels_witness :
    readMessages emptyEnv {} = .ok "No messages found"
    ∧ getConversations emptyEnv {} = .ok "No conversations found"
    ∧ getConversationDetails exampleEnv "nochat"
        = .ok ("No messages found for chat ID: " ++ "nochat") := by
  obtain ⟨h1, h2, h3⟩ := c6_empty_sentinels
  refine ⟨h1 emptyEnv {} rfl ?_, h2 emptyEnv {} rfl, h3 exampleEnv "nochat" exampleMsgs rfl (by decide) (by decide)⟩
  intro r hr
  simp at hr

/-- C3: in both aggregations (the conversations map and the detail loop), the
unread count of a conversation equals the number of its records that are
neither sent by the local user nor read. -/
theorem c3_unread_count (msgs : List Msg) (cid : String) :
    (∀ acc, lookupConv cid (groupConversations msgs) = some acc →
       acc.unreadCount
         = msgs.countP (fun m => m.chatId == cid && !m.isFromMe && !m.isRead))
    ∧ ((msgs.filter (fun m => m.chatId == cid)).foldl detailStep detailInit).unreadCount
        = msgs.countP (fun m => m.chatId == cid && !m.isFromMe && !m.isRead) := by
  have hcount : (msgs.filter (fun m => m.chatId == cid)).countP
      (fun m => !m.isFromMe && !m.isRead)
      = msgs.countP (fun m => m.chatId == cid && !m.isFromMe && !m.isRead) := by
    rw [List.countP_filter]
    apply List.countP_congr
    intro m _
    cases m.chatId == cid <;> cases m.isFromMe <;> cases m.isRead <;> simp
  constructor
  · intro acc h
    rw [lookupConv_group] at h
    cases hf : msgs.filter (fun m => m.chatId == cid) with
    | nil => rw [hf] at h; simp at h
    | cons mh mt =>
      rw [hf] at h
      simp only [Option.some.injEq] at h
      rw [← h, foldl_updateAcc_unread]
      rw [← hcount, hf]
      simp [initAcc]
  · rw [foldl_detailStep_unread, ← hcount]
    simp [detailInit]

/-- Witness for C3 at the example snapshot: conversation chatA has two
records, both from others and both read, so its unread count is 0 and matches
the filtered count. -/
theorem c3_unread_count_witness :
    ({ chatId := "chatA", lastMessage := "a2", lastDate := 20,
       participants := ["alice"], unreadCount := 0 } : ConvAcc).unreadCount
      = exampleMsgs.countP (fun m => m.chatId == "chatA" && !m.isFromMe && !m.isRead) :=
  (c3_unread_count exampleMsgs "chatA").1 _ rfl

/-- C9: every participant recorded by either aggregation is the sender of
some record of that conversation that is not flagged sent-by-local-user;
hence, if the local handle only ever appears as the sender of records flagged
sent-by-local-user, it never enters a participant set. -/
theorem c9_participants_exclude_self :
    (∀ (msgs : List Msg) (cid : String) (acc : ConvAcc),
       lookupConv cid (groupConversations msgs) = some acc →
       ∀ p ∈ acc.participants,
         ∃ m ∈ msgs, m.chatId = cid ∧ m.isFromMe = false ∧ m.sender = p)
    ∧ (∀ (msgs : List Msg) (cid : String),
       ∀ p ∈ ((msgs.filter (fun m => m.chatId == cid)).foldl detailStep
           detailInit).participants,
         ∃ m ∈ msgs, m.chatId = cid ∧ m.isFromMe = false ∧ m.sender = p)
    ∧ (∀ (msgs : List Msg) (cid localHandle : String) (acc : ConvAcc),
       (∀ m ∈ msgs, m.sender = localHandle → m.isFromMe = true) →
       lookupConv cid (groupConversations msgs) = some acc →
       localHandle ∉ acc.participants)
    ∧ (∀ (msgs : List Msg) (cid localHandle : String),
       (∀ m ∈ msgs, m.sender = localHandle → m.isFromMe = true) →
       localHandle ∉ ((msgs.filter (fun m => m.chatId == cid)).foldl detailStep
           detailInit).participants) := by
  have part1 : ∀ (msgs : List Msg) (cid : String) (acc : ConvAcc),
      lookupConv cid (groupConversations msgs) = some acc →
      ∀ p ∈ acc.participants,
        ∃ m ∈ msgs, m.chatId = cid ∧ m.isFromMe = false ∧ m.sender = p := by
    intro msgs cid acc h p hp
    rw [lookupConv_group] at h
    cases hf : msgs.filter (fun m => m.chatId == cid) with
    | nil => rw [hf] at h; simp at h
    | cons mh mt =>
      rw [hf] at h
      simp only [Option.some.injEq] at h
      rw [← h] at hp
      rcases foldl_updateAcc_participants _ _ p hp with hinit | ⟨m, hm, h1, h2⟩
      · simp [initAcc] at hinit
      · rw [← hf] at hm
        obtain ⟨hmem, hcid⟩ := List.mem_filter.mp hm
        exact ⟨m, hmem, by simpa using hcid, h1, h2⟩
  have part2 : ∀ (msgs : List Msg) (cid : String),
      ∀ p ∈ ((msgs.filter (fun m => m.chatId == cid)).foldl detailStep
          detailInit).participants,
        ∃ m ∈ msgs, m.chatId = cid ∧ m.isFromMe = false ∧ m.sender = p := by
    intro msgs cid p hp
    rcases foldl_detailStep_participants _ _ p hp with hinit | ⟨m, hm, h1, h2⟩
    · simp [detailInit] at hinit
    · obtain ⟨hmem, hcid⟩ := List.mem_filter.mp hm
      exact ⟨m, hmem, by simpa using hcid, h1, h2⟩
  refine ⟨part1, part2, ?_, ?_⟩
  · intro msgs cid localHandle acc hlocal h hmem
    obtain ⟨m, hm, -, h1, h2⟩ := part1 msgs cid acc h localHandle hmem
    rw [hlocal m hm h2] at h1
    simp at h1
  · intro msgs cid localHandle hlocal hmem
    obtain ⟨m, hm, -, h1, h2⟩ := part2 msgs cid localHandle hmem
    rw [hlocal m hm h2] at h1
    simp at h1

/-- Witness for C9 at the example snapshot: with a local handle "me" that
never appears as a sender of a record from others, the chatA participant set
does not contain it. -/
theorem c9_participants_exclude_self_witness :
    "me" ∉ ((⟨"chatA", "a2", 20, ["alice"], 0⟩ : ConvAcc)).participants :=
  c9_participants_exclude_self.2.2.1 exampleMsgs "chatA" "me" _ (by decide) rfl

/-- C4: in both aggregations the recorded last timestamp is an upper bound of
the conversation records seen, and the recorded last message is the text of
the FIRST record attaining it — so the pair is replaced only on a strictly
greater timestamp, and on equal timestamps the first-seen text is retained. -/
theorem c4_last_message_tiebreak :
    (∀ (msgs : List Msg) (cid : String) (acc : ConvAcc),
       lookupConv cid (groupConversations msgs) = some acc →
       (∀ m ∈ msgs.filter (fun m => m.chatId == cid), m.date ≤ acc.lastDate)
       ∧ ∃ mf, (msgs.filter (fun m => m.chatId == cid)).find?
             (fun m => m.date == acc.lastDate) = some mf
           ∧ acc.lastMessage = textOrDefault mf.text)
    ∧ (∀ (msgs : List Msg) (cid : String) (t : Nat),
       ((msgs.filter (fun m => m.chatId == cid)).foldl detailStep detailInit).lastDate
         = some t →
       (∀ m ∈ msgs.filter (fun m => m.chatId == cid), m.date ≤ t)
       ∧ ∃ mf, (msgs.filter (fun m => m.chatId == cid)).find? (fun m => m.date == t)
             = some mf
           ∧ ((msgs.filter (fun m => m.chatId == cid)).foldl detailStep
               detailInit).lastMessage = textOrDefault mf.text)
    ∧ (∀ (m₁ m₂ : Msg) (acc : ConvAcc),
       m₁.chatId = m₂.chatId → m₁.date = m₂.date →
       lookupConv m₁.chatId (groupConversations [m₁, m₂]) = some acc →
       acc.lastMessage = textOrDefault m₁.text ∧ acc.lastDate = m₁.date) := by
  have hpart1 : ∀ (msgs : List Msg) (cid : String) (acc : ConvAcc),
      lookupConv cid (groupConversations msgs) = some acc →
      (∀ m ∈ msgs.filter (fun m => m.chatId == cid), m.date ≤ acc.lastDate)
      ∧ ∃ mf, (msgs.filter (fun m => m.chatId == cid)).find?
            (fun m => m.date == acc.lastDate) = some mf
          ∧ acc.lastMessage = textOrDefault mf.text := by
    intro msgs cid acc h
    rw [lookupConv_group] at h
    cases hf : msgs.filter (fun m => m.chatId == cid) with
    | nil => rw [hf] at h; simp at h
    | cons mh mt =>
      rw [hf] at h
      simp only [Option.some.injEq] at h
      obtain ⟨hb, mf, hfind, htext⟩ := convFold_last_char mh mt
      rw [← h]
      exact ⟨hb, mf, hfind, htext⟩
  refine ⟨hpart1, ?_, ?_⟩
  · intro msgs cid t h
    cases hf : msgs.filter (fun m => m.chatId == cid) with
    | nil => rw [hf] at h; simp [detailInit] at h
    | cons mh mt =>
      obtain ⟨t', ht', hb, mf, hfind, htext⟩ := detailFold_last_char mh mt
      rw [hf] at h
      rw [ht'] at h
      simp only [Option.some.injEq] at h
      rw [← h]
      exact ⟨hb, mf, hfind, htext⟩
  · intro m₁ m₂ acc hcid hdate h
    have hfilter : [m₁, m₂].filter (fun m => m.chatId == m₁.chatId) = [m₁, m₂] := by
      simp [List.filter_cons, ← hcid]
    obtain ⟨hb, mf, hfind, htext⟩ := hpart1 [m₁, m₂] m₁.chatId acc h
    rw [hfilter] at hfind
    have hpred := List.find?_some hfind
    have hmem := List.mem_of_find?_eq_some hfind
    have hmfdate : mf.date = m₁.date := by
      rcases List.mem_cons.mp hmem with rfl | hmem2
      · rfl
      · simp at hmem2
        rw [hmem2, ← hdate]
    have hld : acc.lastDate = m₁.date := by
      rw [← eq_of_beq hpred, hmfdate]
    have hfind₁ : [m₁, m₂].find? (fun m => m.date == acc.lastDate) = some m₁ := by
      rw [List.find?_cons_of_pos]
      rw [hld]
      exact beq_self_eq_true _
    rw [hfind] at hfind₁
    simp only [Option.some.injEq] at hfind₁
    refine ⟨?_, hld⟩
    rw [htext, ← hfind₁]

/-- Witness for C4 at a concrete two-record tie: both records of chat "c"
carry timestamp 5, and the aggregated summary keeps the first-seen text. -/
theorem c4_last_message_tiebreak_witness :
    ((⟨"c", "first", 5, ["x", "y"], 2⟩ : ConvAcc)).lastMessage
      = textOrDefault "first"
    ∧ ((⟨"c", "first", 5, ["x", "y"], 2⟩ : ConvAcc)).lastDate = 5 :=
  c4_last_message_tiebreak.2.2
    (⟨"first", "x", 5, false, false, "c", false, ""⟩ : Msg)
    (⟨"second", "y", 5, false, false, "c", false, ""⟩ : Msg)
    ⟨"c", "first", 5, ["x", "y"], 2⟩ rfl rfl rfl

/-- C2: the summaries produced by `getConversations` are exactly the grouped
per-conversation summaries, sorted by descending last timestamp and truncated
to the first `limit`: the result never exceeds `limit` entries, is sorted
descending, holds at most one summary per conversation id, and only ids
occurring in the snapshot; over the example snapshot of 3 messages across 2
chat ids with limit 1, exactly the summary with the latest timestamp (30)
remains. -/
theorem c2_list_conversations :
    (∀ (msgs : List Msg) (limit : Nat),
       getConversationsSummaries msgs limit
         = (sortByDateDesc ((groupConversations msgs).map Prod.snd)).take limit
       ∧ (getConversationsSummaries msgs limit).length ≤ limit
       ∧ (getConversationsSummaries msgs limit).Pairwise
           (fun a b => b.lastDate ≤ a.lastDate)
       ∧ ((getConversationsSummaries msgs limit).map ConvAcc.chatId).Nodup
       ∧ ((getConversationsSummaries msgs limit).all
           (fun c => decide (c.chatId ∈ msgs.map Msg.chatId))) = true)
    ∧ getConversationsSummaries exampleMsgs 1 = [⟨"chatB", "b1", 30, ["bob"], 0⟩]
    ∧ (exampleMsgs.map Msg.date).maximum = some 30 := by
  refine ⟨?_, by rfl, by decide⟩
  intro msgs limit
  refine ⟨rfl, ?_, ?_, ?_, ?_⟩
  · rw [getConversationsSummaries, List.length_take]
    exact min_le_left _ _
  · exact List.Pairwise.sublist (List.take_sublist _ _) (pairwise_sortByDateDesc _)
  · have h1 : ((groupConversations msgs).map Prod.snd).map ConvAcc.chatId
        = (groupConversations msgs).map Prod.fst := by
      rw [List.map_map]
      apply List.map_congr_left
      intro e he
      exact group_entries_chatId msgs e he
    have hperm : ((sortByDateDesc ((groupConversations msgs).map Prod.snd)).map
        ConvAcc.chatId).Perm (((groupConversations msgs).map Prod.snd).map ConvAcc.chatId) :=
      (sortByDateDesc_perm _).map _
    rw [h1] at hperm
    have h2 := hperm.nodup_iff.mpr (group_keys_nodup msgs)
    have h3 : (getConversationsSummaries msgs limit).map ConvAcc.chatId
        = ((sortByDateDesc ((groupConversations msgs).map Prod.snd)).map
            ConvAcc.chatId).take limit := by
      rw [getConversationsSummaries, List.map_take]
    rw [h3]
    exact List.Nodup.sublist (List.take_sublist _ _) h2
  · rw [List.all_eq_true]
    intro c hc
    rw [decide_eq_true_eq]
    have hc1 : c ∈ sortByDateDesc ((groupConversations msgs).map Prod.snd) :=
      List.mem_of_mem_take hc
    have hc2 : c ∈ (groupConversations msgs).map Prod.snd :=
      (sortByDateDesc_perm _).mem_iff.mp hc1
    obtain ⟨e, he, rfl⟩ := List.mem_map.mp hc2
    rw [group_entries_chatId msgs e he]
    exact group_keys_from_msgs msgs e.1 (List.mem_map_of_mem Prod.fst he)
